import Mathlib

/-!
Verification development for the offline finance app (single-file app script,
`src/unnamed/part_000`).  The definitions below are a shallow embedding of the
persistence / snapshot / sync core and of the pure state-transition parts of the
UI handlers.  Modelling conventions, used consistently:

* JS ISO-timestamp values (strings or null/undefined) are modelled by `Ts`:
  `Ts.missing` is a falsy value (null / undefined / empty string),
  `Ts.unparsable s` is a truthy string that `new Date(...)` fails to parse, and
  `Ts.time t` is a string parsing to epoch-milliseconds `t : Int`.
* JS numbers arriving from forms / legacy JSON are modelled by `RawNum`:
  `absent` (null / undefined, skipped by `??`), `nan` (present but not a finite
  number), `num q` (a finite number, as an exact rational).  Using `Rat` instead
  of binary floating point is a modelling choice; no claim here depends on
  floating-point rounding.
* The IndexedDB key/value store (`kv` object store) is modelled by `KVStore`
  with one field per logical key: `stateDoc` for key "state", `metaDoc` for key
  "meta", `snapshotIndexDoc` for key "snapshotIndex", and the function `snaps`
  for the keys "snapshot:" ++ id (the prefix map id ↦ key is injective, so the
  store is keyed by id directly).  `deepClone` of pure values is the identity.
* `new Date().toISOString().slice(0, 10)` identifies the UTC calendar day of an
  instant; since that 10-character string is in bijection with the UTC day
  number, the model represents it by `isoDayOf ms = ms.fdiv 86400000`.
-/

namespace BillarApp

/-! ### Timestamps and `isoNewerThan` (source lines 246-258) -/

/-- A JS value holding an (alleged) ISO timestamp: falsy, truthy-but-unparsable,
or parsable to an epoch-millisecond instant. -/
inductive Ts where
  | missing : Ts
  | unparsable : String → Ts
  | time : Int → Ts
deriving DecidableEq, Repr

/-- `parseComparableIso(iso)`: `new Date(String(iso || ''))`, `null` when the
result is `NaN`; the parsed date is represented by its epoch milliseconds. -/
def parseComparableIso : Ts → Option Int
  | .missing => none
  | .unparsable _ => none
  | .time t => some t

/-- JS truthiness of a `Ts` value. -/
def tsTruthy : Ts → Bool
  | .missing => false
  | .unparsable _ => true
  | .time _ => true

/-- `isoNewerThan(a, b)` (source lines 251-258), branch for branch.  In the
final branch both parses are `some`, so the `getD 0` defaults are never used. -/
def isoNewerThan (a b : Ts) : Bool :=
  let da := parseComparableIso a
  let db := parseComparableIso b
  if !da.isSome && !db.isSome then false
  else if da.isSome && !db.isSome then true
  else if !da.isSome && db.isSome then false
  else decide (da.getD 0 > db.getD 0)

/-- btnPush handler, lines 1415-1421: confirmation is requested iff
`remoteUpdatedAt && isoNewerThan(remoteUpdatedAt, localUpdatedAt)`. -/
def pushNeedsConfirm (remoteUpdatedAt localUpdatedAt : Ts) : Bool :=
  tsTruthy remoteUpdatedAt && isoNewerThan remoteUpdatedAt localUpdatedAt

/-- btnPull handler, lines 1472-1478: confirmation is requested iff
`localUpdatedAt && isoNewerThan(localUpdatedAt, remoteUpdatedAt)`. -/
def pullNeedsConfirm (localUpdatedAt remoteUpdatedAt : Ts) : Bool :=
  tsTruthy localUpdatedAt && isoNewerThan localUpdatedAt remoteUpdatedAt

/-- The push half of claim C1 as the spec words it: confirmation iff both
timestamps are present/parsable and `T2 > T1` strictly; `T1 == T2` or either
missing means no confirmation.  Used only to compare against the code. -/
def pushConfirmPerSpec (remoteUpdatedAt localUpdatedAt : Ts) : Bool :=
  match parseComparableIso remoteUpdatedAt, parseComparableIso localUpdatedAt with
  | some t2, some t1 => decide (t2 > t1)
  | _, _ => false

/-- The pull half of claim C1 as the spec words it. -/
def pullConfirmPerSpec (localUpdatedAt remoteUpdatedAt : Ts) : Bool :=
  match parseComparableIso localUpdatedAt, parseComparableIso remoteUpdatedAt with
  | some t1, some t2 => decide (t1 > t2)
  | _, _ => false

/-! ### Form / legacy numeric and string coercions (source lines 33-53, 342-344) -/

/-- A loosely-typed numeric JS value as it arrives from a form field or legacy
JSON: absent (null/undefined), present but not a finite number, or a finite
number. -/
inductive RawNum where
  | absent : RawNum
  | nan : RawNum
  | num : Rat → RawNum
deriving DecidableEq, Repr

/-- `parseMoney(value)`: `Number(value)` if finite, else 0. -/
def parseMoney : RawNum → Rat
  | .num q => q
  | _ => 0

/-- `clampInt(n, min, max)`: floor of `Number(n)` clamped to `[min, max]`,
returning `min` when the floor is not finite. -/
def clampInt (v : RawNum) (lo hi : Int) : Int :=
  match v with
  | .num q => min hi (max lo ⌊q⌋)
  | _ => lo

/-- JS `??` on raw values: only `absent` (null/undefined) falls through. -/
def rawOr (a b : RawNum) : RawNum :=
  match a with
  | .absent => b
  | _ => a

/-- JS `s || d` for an optional string value: the default is taken when the
value is absent or the empty string (both falsy). -/
def jsOrStr (v : Option String) (d : String) : String :=
  match v with
  | some s => if s = "" then d else s
  | none => d

/-- A falsy optional string collapses to `none`. -/
def truthyStr (v : Option String) : Option String :=
  match v with
  | some s => if s = "" then none else some s
  | none => none

/-- JS `a || b` where both sides are optional strings and the result is used as
an optional value (falsy results stay absent). -/
def jsOrOpt (a b : Option String) : Option String :=
  match truthyStr a with
  | some s => some s
  | none => truthyStr b

/-- JS `String.prototype.trim`, implemented over the character list so that it
is kernel-evaluable (the ASCII whitespace cases are the ones that occur). -/
def jsTrim (s : String) : String :=
  ⟨((s.data.dropWhile Char.isWhitespace).reverse.dropWhile Char.isWhitespace).reverse⟩

/-- JS `String.prototype.toLowerCase`, kernel-evaluable ASCII case folding. -/
def jsToLower (s : String) : String := ⟨s.data.map Char.toLower⟩

/-- `Number(x.toFixed(2))`: rounding to two decimal places (modelled with exact
rational rounding; no claim depends on float-vs-rational rounding of ties). -/
def round2 (q : Rat) : Rat := (round (q * 100) : Int) / 100

/-- `normalizeName(s)`: trim then case-fold. -/
def normalizeName (s : String) : String := jsToLower (jsTrim s)

/-! ### Domain data model (source typedefs, lines 24-27, and `emptyState`,
lines 575-587) -/

structure Business where
  name : String
  currency : String
deriving DecidableEq, Repr

structure Product where
  id : Int
  name : String
  category : String
  cost : Rat
  price : Rat
  stock : Int
  stockMin : Int
deriving DecidableEq, Repr

structure Sale where
  id : Int
  at_ : String
  productId : Int
  qty : Int
  unitPrice : Rat
  unitCost : Rat
  total : Rat
  profit : Rat
  notes : Option String
deriving DecidableEq, Repr

structure Expense where
  id : Int
  at_ : String
  etype : String
  amount : Rat
  description : Option String
deriving DecidableEq, Repr

structure TableSession where
  id : Int
  table : Int
  players : Int
  rate : Rat
  startAt : String
  endAt : Option String
  active : Bool
  total : Option Rat
deriving DecidableEq, Repr

/-- A well-formed domain state (all four collections present). -/
structure DomainState where
  version : Int
  business : Business
  products : List Product
  sales : List Sale
  expenses : List Expense
  tables : List TableSession
deriving DecidableEq, Repr

/-- An untrusted state document as loaded from storage, a file import or the
remote: each top-level field may be missing / not an array.  Collection
elements are modelled as well-typed because none of the verified code paths
inspects them before adoption. -/
structure RawState where
  version : Option Int
  business : Option Business
  products : Option (List Product)
  sales : Option (List Sale)
  expenses : Option (List Expense)
  tables : Option (List TableSession)
deriving DecidableEq, Repr

/-- `emptyState()` (lines 575-587). -/
def emptyState : DomainState :=
  { version := 1
    business := { name := "M&S - Control Finanzas", currency := "GTQ" }
    products := []
    sales := []
    expenses := []
    tables := [] }

/-- `isStateEmpty(state)` (lines 147-149):
`!state.products?.length && !state.sales?.length && ...`. -/
def isStateEmpty (s : RawState) : Bool :=
  (match s.products with | none => true | some l => l.isEmpty)
  && (match s.sales with | none => true | some l => l.isEmpty)
  && (match s.expenses with | none => true | some l => l.isEmpty)
  && (match s.tables with | none => true | some l => l.isEmpty)

/-- `isValidStateShape(s)` (lines 242-244): the four collections are present
and array-typed. -/
def isValidStateShape (s : RawState) : Bool :=
  s.products.isSome && s.sales.isSome && s.expenses.isSome && s.tables.isSome

/-- A `RawState` with every top-level field absent. -/
def rawAbsent : RawState := ⟨none, none, none, none, none, none⟩

/-! ### Metadata record and KV store (source lines 103-170, 163-179) -/

structure SnapEntry where
  id : String
  at_ : String
  reason : String
deriving DecidableEq, Repr

structure Snapshot where
  id : String
  at_ : String
  reason : String
  state : RawState
deriving DecidableEq, Repr

/-- The metadata record (key "meta").  Timestamp-valued fields use `Ts` with
`Ts.missing` for an absent field; `lastSnapshotDay` stores the UTC day number
standing for the `toISOString().slice(0, 10)` string. -/
structure Meta where
  deviceId : Option String
  stateUpdatedAt : Ts
  stateUpdatedBy : Option String
  stateUpdatedSource : Option String
  lastSnapshotDay : Option Int
  legacyBillarMigratedAt : Option String
  lastSyncPushAt : Ts
  lastSyncPullAt : Ts
deriving DecidableEq, Repr

/-- `{}` as a metadata record: every field absent. -/
def defaultMeta : Meta :=
  { deviceId := none
    stateUpdatedAt := .missing
    stateUpdatedBy := none
    stateUpdatedSource := none
    lastSnapshotDay := none
    legacyBillarMigratedAt := none
    lastSyncPushAt := .missing
    lastSyncPullAt := .missing }

/-- The IndexedDB `kv` object store, one field per logical key (see the header
comment).  `snaps id` models the document under key `"snapshot:" ++ id`. -/
structure KVStore where
  stateDoc : Option RawState
  metaDoc : Option Meta
  snapshotIndexDoc : Option (List SnapEntry)
  snaps : String → Option Snapshot

def emptyKV : KVStore :=
  { stateDoc := none, metaDoc := none, snapshotIndexDoc := none, snaps := fun _ => none }

/-- `getMeta()` (lines 163-166): the stored record, or `{}`. -/
def getMeta (kv : KVStore) : Meta := kv.metaDoc.getD defaultMeta

/-- `setMeta(meta)` (lines 168-170). -/
def setMeta (kv : KVStore) (m : Meta) : KVStore := { kv with metaDoc := some m }

/-- `listSnapshots()` (lines 299-302): the stored index, or `[]`. -/
def listSnapshots (kv : KVStore) : List SnapEntry := kv.snapshotIndexDoc.getD []

def getSnap (kv : KVStore) (id : String) : Option Snapshot := kv.snaps id

def putSnap (kv : KVStore) (id : String) (s : Snapshot) : KVStore :=
  { kv with snaps := fun k => if k = id then some s else kv.snaps k }

def deleteSnap (kv : KVStore) (id : String) : KVStore :=
  { kv with snaps := fun k => if k = id then none else kv.snaps k }

/-! ### Snapshot engine (source lines 22, 304-340) -/

/-- `MAX_SNAPSHOTS` (line 22). -/
def maxSnapshots : Nat := 20

/-- The body of the `while (idx.length > MAX_SNAPSHOTS)` trim loop of
`createSnapshot` (lines 320-325): pop the last index entry and delete its body
(the delete is skipped when the popped entry's id is falsy).  `fuel` only bounds
the iteration count; every iteration shortens the index by one, so any
`fuel ≥ idx.length` runs the loop to completion exactly as the source does. -/
def trimGo : Nat → List SnapEntry → KVStore → List SnapEntry × KVStore
  | 0, idx, kv => (idx, kv)
  | fuel + 1, idx, kv =>
    if maxSnapshots < idx.length then
      match idx.getLast? with
      | some removed =>
        trimGo fuel idx.dropLast (if removed.id = "" then kv else deleteSnap kv removed.id)
      | none => (idx, kv)
    else (idx, kv)

/-- The trim loop run to completion. -/
def trimSnapshots (idx : List SnapEntry) (kv : KVStore) : List SnapEntry × KVStore :=
  trimGo idx.length idx kv

/-- `createSnapshot(state, reason)` (lines 304-329).  `now` stands for the
`nowISO()` string, which is both the body key suffix and the entry id; the deep
copy of a pure value is the value itself. -/
def createSnapshot (kv : KVStore) (state : RawState) (reason : String) (now : String) :
    KVStore × Snapshot :=
  let at_ := now
  let id := at_
  let snapshot : Snapshot :=
    { id := id, at_ := at_, reason := if reason = "" then "manual" else reason, state := state }
  let kv1 := putSnap kv id snapshot
  let idx := listSnapshots kv1
  let idx1 : List SnapEntry := ⟨id, at_, snapshot.reason⟩ :: idx
  let p := trimSnapshots idx1 kv1
  ({ p.2 with snapshotIndexDoc := some p.1 }, snapshot)

/-- Milliseconds per day. -/
def msPerDay : Int := 86400000

/-- The UTC calendar day of an epoch instant — the content of
`new Date(ms).toISOString().slice(0, 10)`. -/
def isoDayOf (ms : Int) : Int := Int.fdiv ms msPerDay

/-- The local calendar day of an epoch instant for a timezone `tzOffsetMin`
minutes behind UTC (the sign convention of JS `getTimezoneOffset`). -/
def localDayOf (ms tzOffsetMin : Int) : Int := isoDayOf (ms - tzOffsetMin * 60000)

/-- `ensureDailySnapshot(state)` (lines 331-340).  `nowMs` is the current
instant; `nowIso` is the `nowISO()` string used as the snapshot id.  The code
compares `meta.lastSnapshotDay` against `new Date().toISOString().slice(0,10)`,
i.e. against the UTC day of `nowMs`. -/
def ensureDailySnapshot (kv : KVStore) (state : RawState) (nowMs : Int) (nowIso : String) :
    KVStore :=
  if isStateEmpty state then kv
  else
    let meta := getMeta kv
    let today := isoDayOf nowMs
    if meta.lastSnapshotDay = some today then kv
    else
      let kv1 := (createSnapshot kv state "auto-diario" nowIso).1
      setMeta kv1 { meta with lastSnapshotDay := some today }

/-! ### State repository: `saveState` (source lines 559-573) -/

structure SaveOptions where
  updatedAt : Ts
  updatedBy : Option String
  source : Option String
deriving DecidableEq, Repr

/-- JS `t || d` on timestamp values. -/
def tsOr (t d : Ts) : Ts := if tsTruthy t then t else d

/-- `saveState(state, options)` (lines 559-573): write the state document,
then best-effort update the metadata record.  `metaWriteOk = false` models the
metadata update path throwing (the `catch` ignores it); `freshId` models
`randomId()`. -/
def saveState (kv : KVStore) (state : RawState) (o : SaveOptions)
    (nowMs : Int) (freshId : String) (metaWriteOk : Bool) : KVStore :=
  let kv1 := { kv with stateDoc := some state }
  if metaWriteOk then
    let meta := getMeta kv1
    let dev := jsOrStr meta.deviceId freshId
    setMeta kv1
      { meta with
        deviceId := some dev
        stateUpdatedAt := tsOr o.updatedAt (.time nowMs)
        stateUpdatedBy := some (jsOrStr o.updatedBy dev)
        stateUpdatedSource := some (jsOrStr o.source "local") }
  else kv1

/-! ### Sync pull (source lines 1448-1499) -/

/-- A fetched remote document `{app, format, updatedAt, updatedBy, state}`;
only the fields the pull handler reads are modelled. -/
structure RemoteDoc where
  updatedAt : Ts
  updatedBy : Option String
  stateRaw : Option RawState
deriving DecidableEq, Repr

inductive PullOutcome where
  | noData : PullOutcome
  | shapeError : PullOutcome
  | cancelled : PullOutcome
  | pulled : PullOutcome
deriving DecidableEq, Repr

/-- The btnPull click handler from the fetch result onward (lines 1457-1493).
`remote = none` models both a 404 and an empty document; `confirmReplace` is
the user's answer to the confirm prompt; the returned triple is (kv store,
live state, outcome). -/
def pullStep (kv : KVStore) (live : RawState) (remote : Option RemoteDoc)
    (confirmReplace : Bool) (nowMs : Int) (freshId : String) (metaWriteOk : Bool) :
    KVStore × RawState × PullOutcome :=
  match remote with
  | none => (kv, live, .noData)
  | some r =>
    match r.stateRaw with
    | none => (kv, live, .noData)
    | some rs =>
      if !isValidStateShape rs then (kv, live, .shapeError)
      else
        let meta := getMeta kv
        let localUpdatedAt := meta.stateUpdatedAt
        let remoteUpdatedAt := r.updatedAt
        if tsTruthy localUpdatedAt && isoNewerThan localUpdatedAt remoteUpdatedAt
            && !confirmReplace then
          (kv, live, .cancelled)
        else
          let kv1 := saveState kv rs
            { updatedAt := tsOr remoteUpdatedAt (.time nowMs)
              updatedBy := jsOrOpt r.updatedBy meta.deviceId
              source := some "sync-pull" }
            nowMs freshId metaWriteOk
          let m2 := getMeta kv1
          let kv2 := setMeta kv1 { m2 with lastSyncPullAt := .time nowMs }
          (kv2, rs, .pulled)

/-! ### UI handlers as pure state transitions -/

/-- Replace the first product whose id matches (JS mutates the object returned
by `Array.prototype.find`). -/
def updateFirstProduct (l : List Product) (pid : Int) (f : Product → Product) : List Product :=
  match l with
  | [] => []
  | p :: rest => if p.id == pid then f p :: rest else p :: updateFirstProduct rest pid f

structure ProductFormInput where
  id : Int
  name : String
  category : String
  cost : RawNum
  price : RawNum
  stock : RawNum
  stockMin : RawNum
deriving DecidableEq, Repr

/-- The productForm submit handler (lines 1052-1105): validation, then either
in-place edit of the matching product or append of a new one.  `inp.id = 0`
models an empty `productId` field (create). -/
def submitProduct (st : DomainState) (inp : ProductFormInput) (newId : Int) : DomainState :=
  let name := jsTrim inp.name
  let cost := parseMoney inp.cost
  let price := parseMoney inp.price
  let stock := clampInt inp.stock 0 1000000
  let stockMin := clampInt inp.stockMin 0 1000000
  if name = "" then st
  else if !decide (cost ≥ 0) || !decide (price ≥ 0) || decide (price < cost) then st
  else if inp.id ≠ 0 then
    if (st.products.find? (fun x => x.id == inp.id)).isSome then
      { st with
        products := updateFirstProduct st.products inp.id (fun p =>
          { p with name := name, category := inp.category, cost := cost, price := price,
                   stock := stock, stockMin := stockMin }) }
    else st
  else
    { st with
      products := st.products ++
        [{ id := newId, name := name, category := inp.category, cost := cost, price := price,
           stock := stock, stockMin := stockMin }] }

/-- The saleForm submit handler (lines 1147-1189): reject when no product is
selected or stock is insufficient; otherwise append the sale and decrement the
found product's stock. -/
def recordSale (st : DomainState) (productId : Int) (qtyRaw : RawNum) (notesRaw : String)
    (newId : Int) (now : String) : DomainState × Option Sale :=
  let qty := clampInt qtyRaw 1 1000000
  let notes := jsTrim notesRaw
  match st.products.find? (fun x => x.id == productId) with
  | none => (st, none)
  | some p =>
    if p.stock < qty then (st, none)
    else
      let total := (qty : Rat) * p.price
      let profit := (qty : Rat) * (p.price - p.cost)
      let sale : Sale :=
        { id := newId, at_ := now, productId := p.id, qty := qty, unitPrice := p.price,
          unitCost := p.cost, total := total, profit := profit,
          notes := if notes = "" then none else some notes }
      ({ st with
          sales := st.sales ++ [sale]
          products := updateFirstProduct st.products productId
            (fun q => { q with stock := q.stock - qty }) },
        some sale)

/-- The salesTbody "sale-del" click handler (lines 1191-1203): if the sale
exists and the user confirms, remove every sale with that id; stock is not
restored. -/
def deleteSale (st : DomainState) (saleId : Int) (confirmDelete : Bool) : DomainState :=
  match st.sales.find? (fun s => s.id == saleId) with
  | none => st
  | some _ =>
    if confirmDelete then
      { st with sales := st.sales.filter (fun s => !(s.id == saleId)) }
    else st

/-- The tableForm submit handler (lines 1244-1278): reject a non-positive rate
or a table number that already has an active session; otherwise append a fresh
active session. -/
def startTable (st : DomainState) (tableRaw playersRaw rateRaw : RawNum)
    (newId : Int) (now : String) : DomainState :=
  let table := clampInt tableRaw 1 100
  let players := clampInt playersRaw 1 50
  let rate := parseMoney rateRaw
  if !decide (rate > 0) then st
  else if (st.tables.find? (fun t => t.active && t.table == table)).isSome then st
  else
    { st with
      tables := st.tables ++
        [{ id := newId, table := table, players := players, rate := rate, startAt := now,
           endAt := none, active := true, total := none }] }

/-! ### Legacy importer (source lines 342-461) -/

structure LegacyProduct where
  nombre : Option String
  name : Option String
  categoria : Option String
  costo : RawNum
  precio : RawNum
  stock : RawNum
  stockMinimo : RawNum
deriving DecidableEq, Repr

/-- A legacy sale record.  `hora` models the already-parsed result of
`parseLegacyDate(ls?.hora || ls?.at)` rendered back to ISO (`none` when the
legacy date is absent or unparsable, in which case "now" is used). -/
structure LegacySale where
  cantidad : RawNum
  qty : RawNum
  precio : RawNum
  unitPrice : RawNum
  total : RawNum
  ganancia : RawNum
  profit : RawNum
  producto : Option String
  product : Option String
  hora : Option String
deriving DecidableEq, Repr

/-- A legacy table record; `inicio` models the parsed start date as for
`LegacySale.hora`. -/
structure LegacyTable where
  activa : Option Bool
  mesa : RawNum
  jugadores : RawNum
  tarifa : RawNum
  inicio : Option String
deriving DecidableEq, Repr

/-- Accumulator for the three migration loops; `k` counts `uuid()` calls. -/
structure MigAcc where
  products : List Product
  byName : List (String × Product)
  sales : List Sale
  tables : List TableSession
  k : Nat
deriving Repr

/-- One iteration of the products loop of
`migrateFromLegacyBillarLocalStorageIntoState` (lines 383-399). -/
def migProductStep (gen : Nat → Int) (acc : MigAcc) (lp : LegacyProduct) : MigAcc :=
  let name := jsTrim (jsOrStr lp.nombre (jsOrStr lp.name ""))
  if name = "" then acc
  else
    let product : Product :=
      { id := gen acc.k, name := name, category := jsOrStr lp.categoria "otro",
        cost := parseMoney lp.costo, price := parseMoney lp.precio,
        stock := clampInt lp.stock 0 1000000, stockMin := clampInt lp.stockMinimo 0 1000000 }
    { acc with
      products := acc.products ++ [product]
      byName := (normalizeName product.name, product) :: acc.byName
      k := acc.k + 1 }

/-- One iteration of the sales loop (lines 402-441), synthesizing a placeholder
product when no imported product matches the normalized legacy name. -/
def migSaleStep (gen : Nat → Int) (now : String) (acc : MigAcc) (ls : LegacySale) : MigAcc :=
  let qty := clampInt (rawOr ls.cantidad ls.qty) 1 1000000
  let unitPrice := parseMoney (rawOr ls.precio ls.unitPrice)
  let total := parseMoney (rawOr ls.total (.num (unitPrice * (qty : Rat))))
  let profit := parseMoney (rawOr ls.ganancia ls.profit)
  let name := jsTrim (jsOrStr ls.producto (jsOrStr ls.product ""))
  let atIso := ls.hora.getD now
  match acc.byName.lookup (normalizeName name) with
  | some product =>
    let sale : Sale :=
      { id := gen acc.k, at_ := atIso, productId := product.id, qty := qty,
        unitPrice := round2 unitPrice, unitCost := round2 product.cost,
        total := round2 total, profit := round2 profit, notes := some "Migrado" }
    { acc with sales := acc.sales ++ [sale], k := acc.k + 1 }
  | none =>
    let unitProfit := if qty ≠ 0 then profit / (qty : Rat) else 0
    let unitCost := max 0 (unitPrice - unitProfit)
    let product : Product :=
      { id := gen acc.k, name := if name = "" then "Producto (migrado)" else name,
        category := "otro", cost := round2 unitCost, price := round2 unitPrice,
        stock := 0, stockMin := 0 }
    let sale : Sale :=
      { id := gen (acc.k + 1), at_ := atIso, productId := product.id, qty := qty,
        unitPrice := round2 unitPrice, unitCost := round2 product.cost,
        total := round2 total, profit := round2 profit, notes := some "Migrado" }
    { acc with
      products := acc.products ++ [product]
      byName := (normalizeName product.name, product) :: acc.byName
      sales := acc.sales ++ [sale]
      k := acc.k + 2 }

/-- One iteration of the tables loop (lines 444-458): records not explicitly
inactive are imported as active sessions. -/
def migTableStep (gen : Nat → Int) (now : String) (acc : MigAcc) (lt : LegacyTable) : MigAcc :=
  if lt.activa = some false then acc
  else
    { acc with
      tables := acc.tables ++
        [{ id := gen acc.k, table := clampInt lt.mesa 1 1000000,
           players := clampInt lt.jugadores 1 100, rate := parseMoney lt.tarifa,
           startAt := lt.inicio.getD now, endAt := none, active := true, total := none }]
      k := acc.k + 1 }

/-- `migrateFromLegacyBillarLocalStorageIntoState(state)` (lines 351-461).
`none` models `{state, migrated: false}` (the input state is returned
unchanged); `some next` models `{state: next, migrated: true}`.  `gen` numbers
the successive `uuid()` calls. -/
def migrateLegacy (state : RawState)
    (legacyProducts : Option (List LegacyProduct))
    (legacySales : Option (List LegacySale))
    (legacyTables : Option (List LegacyTable))
    (gen : Nat → Int) (now : String) : Option DomainState :=
  if !isStateEmpty state then none
  else
    let hasAnything :=
      (match legacyProducts with | some l => !l.isEmpty | none => false)
      || (match legacySales with | some l => !l.isEmpty | none => false)
      || (match legacyTables with | some l => !l.isEmpty | none => false)
    if !hasAnything then none
    else
      let acc0 : MigAcc := { products := [], byName := [], sales := [], tables := [], k := 0 }
      let acc1 := (legacyProducts.getD []).foldl (migProductStep gen) acc0
      let acc2 := (legacySales.getD []).foldl (migSaleStep gen now) acc1
      let acc3 := (legacyTables.getD []).foldl (migTableStep gen now) acc2
      some
        { version := emptyState.version
          business := state.business.getD emptyState.business
          products := acc3.products
          sales := acc3.sales
          expenses := []
          tables := acc3.tables }

/-! ### Derived notions used by the claims -/

/-- The product invariants of the spec's data model. -/
def ProdInv (p : Product) : Prop := p.cost ≤ p.price ∧ 0 ≤ p.stock ∧ 0 ≤ p.stockMin

instance : DecidablePred ProdInv := fun p => by unfold ProdInv; infer_instance

/-- At most one active table session per table number. -/
def UniqueActiveTables (l : List TableSession) : Prop :=
  l.Pairwise (fun a b => a.active = true → b.active = true → a.table ≠ b.table)

instance : DecidablePred UniqueActiveTables := fun l => by
  unfold UniqueActiveTables; infer_instance

/-- Run a sequence of `createSnapshot` calls (reason "manual") against an
initially empty store; each call is a pair (timestamp id, state). -/
def runCreates (calls : List (String × RawState)) : KVStore :=
  calls.foldl (fun kv c => (createSnapshot kv c.2 "manual" c.1).1) emptyKV

/-- The most recent `maxSnapshots` calls, newest first. -/
def recentWindow (calls : List (String × RawState)) : List (String × RawState) :=
  calls.reverse.take maxSnapshots

def entryOfCall (c : String × RawState) : SnapEntry := ⟨c.1, c.1, "manual"⟩

def snapOfCall (c : String × RawState) : Snapshot := ⟨c.1, c.1, "manual", c.2⟩

/-- The retention invariant of the snapshot store: the index lists exactly the
most recent window (newest first) and the bodies present are exactly those of
the window. -/
def SnapInv (calls : List (String × RawState)) (kv : KVStore) : Prop :=
  listSnapshots kv = (recentWindow calls).map entryOfCall
  ∧ (∀ c ∈ recentWindow calls, getSnap kv c.1 = some (snapOfCall c))
  ∧ (∀ id : String, id ∉ (recentWindow calls).map Prod.fst → getSnap kv id = none)

/-- A sample non-empty raw state used by concrete witnesses. -/
def sampleRaw : RawState :=
  { version := some 1
    business := none
    products := some [{ id := 1, name := "Soda", category := "bebida", cost := 5, price := 8,
                        stock := 10, stockMin := 2 }]
    sales := some []
    expenses := some []
    tables := some [] }

/-- A sample well-formed domain state used by concrete witnesses: one product
(the spec's Soda scenario), two sales, one active table session. -/
def sampleState : DomainState :=
  { version := 1
    business := { name := "b", currency := "GTQ" }
    products := [{ id := 1, name := "Soda", category := "bebida", cost := 5, price := 8,
                   stock := 10, stockMin := 2 }]
    sales := [{ id := 7, at_ := "t1", productId := 1, qty := 1, unitPrice := 8, unitCost := 5,
                total := 8, profit := 3, notes := none },
              { id := 8, at_ := "t2", productId := 1, qty := 2, unitPrice := 8, unitCost := 5,
                total := 16, profit := 6, notes := none }]
    expenses := []
    tables := [{ id := 3, table := 1, players := 2, rate := 10, startAt := "t0", endAt := none,
                 active := true, total := none }] }

/-! ### Basic store lemmas -/

theorem getMeta_setMeta (kv : KVStore) (m : Meta) : getMeta (setMeta kv m) = m := rfl

theorem listSnapshots_setMeta (kv : KVStore) (m : Meta) :
    listSnapshots (setMeta kv m) = listSnapshots kv := rfl

theorem listSnapshots_putSnap (kv : KVStore) (id : String) (s : Snapshot) :
    listSnapshots (putSnap kv id s) = listSnapshots kv := rfl

theorem getMeta_putSnap (kv : KVStore) (id : String) (s : Snapshot) :
    getMeta (putSnap kv id s) = getMeta kv := rfl

theorem getMeta_deleteSnap (kv : KVStore) (id : String) :
    getMeta (deleteSnap kv id) = getMeta kv := rfl

theorem getSnap_putSnap (kv : KVStore) (id : String) (s : Snapshot) (j : String) :
    getSnap (putSnap kv id s) j = if j = id then some s else getSnap kv j := rfl

theorem getSnap_deleteSnap (kv : KVStore) (id : String) (j : String) :
    getSnap (deleteSnap kv id) j = if j = id then none else getSnap kv j := rfl

/-! ### Trim-loop lemmas -/

theorem trimGo_of_le (fuel : Nat) (idx : List SnapEntry) (kv : KVStore)
    (h : idx.length ≤ maxSnapshots) : trimGo fuel idx kv = (idx, kv) := by
  cases fuel with
  | zero => rfl
  | succ n => simp only [trimGo]; rw [if_neg (by omega)]

theorem trimGo_succ_of_last (fuel : Nat) (idx : List SnapEntry) (kv : KVStore) (r : SnapEntry)
    (hlen : maxSnapshots < idx.length) (hr : idx.getLast? = some r) :
    trimGo (fuel + 1) idx kv
      = trimGo fuel idx.dropLast (if r.id = "" then kv else deleteSnap kv r.id) := by
  simp only [trimGo, if_pos hlen, hr]

theorem trimSnapshots_of_le (idx : List SnapEntry) (kv : KVStore)
    (h : idx.length ≤ maxSnapshots) : trimSnapshots idx kv = (idx, kv) :=
  trimGo_of_le _ _ _ h

theorem trimSnapshots_eq21 (idx : List SnapEntry) (kv : KVStore) (r : SnapEntry)
    (h : idx.length = maxSnapshots + 1) (hr : idx.getLast? = some r) :
    trimSnapshots idx kv
      = (idx.dropLast, if r.id = "" then kv else deleteSnap kv r.id) := by
  unfold trimSnapshots
  rw [h, trimGo_succ_of_last _ _ _ r (by omega) hr]
  exact trimGo_of_le _ _ _ (by simp [List.length_dropLast, h])

theorem trimGo_fst (fuel : Nat) : ∀ (idx : List SnapEntry) (kv : KVStore),
    idx.length ≤ fuel + maxSnapshots → (trimGo fuel idx kv).1 = idx.take maxSnapshots := by
  induction fuel with
  | zero =>
    intro idx kv h
    show idx = idx.take maxSnapshots
    exact (List.take_of_length_le (by omega)).symm
  | succ n ih =>
    intro idx kv h
    by_cases hlt : maxSnapshots < idx.length
    · have hne : idx ≠ [] := by
        intro he
        rw [he] at hlt
        simp [maxSnapshots] at hlt
      rw [trimGo_succ_of_last n idx kv (idx.getLast hne) hlt
        (List.getLast?_eq_getLast idx hne)]
      rw [ih _ _ (by simp only [List.length_dropLast]; omega)]
      rw [List.dropLast_eq_take, List.take_take, Nat.min_eq_left (by omega)]
    · rw [trimGo_of_le (n + 1) idx kv (by omega)]
      show idx = idx.take maxSnapshots
      exact (List.take_of_length_le (by omega)).symm

theorem trimSnapshots_fst (idx : List SnapEntry) (kv : KVStore) :
    (trimSnapshots idx kv).1 = idx.take maxSnapshots :=
  trimGo_fst idx.length idx kv (by omega)

theorem trimGo_snd_docs (fuel : Nat) : ∀ (idx : List SnapEntry) (kv : KVStore),
    (trimGo fuel idx kv).2.metaDoc = kv.metaDoc
    ∧ (trimGo fuel idx kv).2.stateDoc = kv.stateDoc
    ∧ (trimGo fuel idx kv).2.snapshotIndexDoc = kv.snapshotIndexDoc := by
  induction fuel with
  | zero => intro idx kv; exact ⟨rfl, rfl, rfl⟩
  | succ n ih =>
    intro idx kv
    by_cases hlt : maxSnapshots < idx.length
    · cases hr : idx.getLast? with
      | none =>
        rw [show trimGo (n + 1) idx kv = (idx, kv) by simp only [trimGo, if_pos hlt, hr]]
        exact ⟨rfl, rfl, rfl⟩
      | some r =>
        rw [trimGo_succ_of_last n idx kv r hlt hr]
        have h' := ih idx.dropLast (if r.id = "" then kv else deleteSnap kv r.id)
        have hm : (if r.id = "" then kv else deleteSnap kv r.id).metaDoc = kv.metaDoc := by
          by_cases hid : r.id = "" <;> simp [hid, deleteSnap]
        have hs : (if r.id = "" then kv else deleteSnap kv r.id).stateDoc = kv.stateDoc := by
          by_cases hid : r.id = "" <;> simp [hid, deleteSnap]
        have hi : (if r.id = "" then kv else deleteSnap kv r.id).snapshotIndexDoc
            = kv.snapshotIndexDoc := by
          by_cases hid : r.id = "" <;> simp [hid, deleteSnap]
        exact ⟨h'.1.trans hm, h'.2.1.trans hs, h'.2.2.trans hi⟩
    · rw [show trimGo (n + 1) idx kv = (idx, kv) by simp only [trimGo, if_neg hlt]]
      exact ⟨rfl, rfl, rfl⟩

theorem trimSnapshots_snd_metaDoc (idx : List SnapEntry) (kv : KVStore) :
    (trimSnapshots idx kv).2.metaDoc = kv.metaDoc :=
  (trimGo_snd_docs idx.length idx kv).1

theorem trimSnapshots_snd_stateDoc (idx : List SnapEntry) (kv : KVStore) :
    (trimSnapshots idx kv).2.stateDoc = kv.stateDoc :=
  (trimGo_snd_docs idx.length idx kv).2.1

/-! ### `createSnapshot` component lemmas -/

theorem listSnapshots_createSnapshot (kv : KVStore) (st : RawState) (reason now : String) :
    listSnapshots (createSnapshot kv st reason now).1
      = ((⟨now, now, if reason = "" then "manual" else reason⟩ : SnapEntry)
          :: listSnapshots kv).take maxSnapshots := by
  simp only [createSnapshot, listSnapshots, listSnapshots_putSnap]
  rw [show ∀ (p : List SnapEntry × KVStore),
        ({ p.2 with snapshotIndexDoc := some p.1 } : KVStore).snapshotIndexDoc.getD []
          = p.1 from fun p => rfl]
  exact trimSnapshots_fst _ _

theorem getMeta_createSnapshot (kv : KVStore) (st : RawState) (reason now : String) :
    getMeta (createSnapshot kv st reason now).1 = getMeta kv := by
  simp only [createSnapshot, getMeta]
  rw [show ∀ (p : List SnapEntry × KVStore),
        ({ p.2 with snapshotIndexDoc := some p.1 } : KVStore).metaDoc = p.2.metaDoc
        from fun p => rfl]
  rw [trimSnapshots_snd_metaDoc]
  rfl

/-! ### Theorems for C1 and C2 -/

/-- C2: `isoNewerThan` returns false in both directions when both arguments are
absent/unparsable, true when only the first is present and parsable, false when
only the second is, and otherwise strict greater-than on the parsed instants. -/
theorem c2_isoNewerThan_characterization (a b : Ts) :
    isoNewerThan a b =
      (match parseComparableIso a, parseComparableIso b with
       | none, none => false
       | some _, none => true
       | none, some _ => false
       | some ta, some tb => decide (ta > tb)) := by
  cases a <;> cases b <;> simp [isoNewerThan, parseComparableIso]

/-- C1 (amended): push asks for confirmation iff the remote timestamp is
present and parsable and either the local timestamp is absent/unparsable or the
remote instant is strictly newer; pull is the mirror image.  In particular both
timestamps equal, or both missing, require no confirmation — but one present
timestamp against one missing timestamp does require confirmation on the side
where the present one wins, contrary to the claim as stated. -/
theorem c1_confirmation_rule (t1 t2 : Ts) :
    (pushNeedsConfirm t2 t1 =
      (match parseComparableIso t2, parseComparableIso t1 with
       | none, _ => false
       | some _, none => true
       | some b, some a => decide (b > a)))
    ∧ (pullNeedsConfirm t1 t2 =
      (match parseComparableIso t1, parseComparableIso t2 with
       | none, _ => false
       | some _, none => true
       | some a, some b => decide (a > b))) := by
  cases t1 <;> cases t2 <;>
    simp [pushNeedsConfirm, pullNeedsConfirm, isoNewerThan, parseComparableIso, tsTruthy]

/-- C1 counterexample: with the local timestamp missing and the remote one
present (`t = 0`), the code requires confirmation for both push and pull of the
respective newer side, while the claim says a missing timestamp means no
confirmation is required. -/
theorem c1_counterexample :
    pushNeedsConfirm (Ts.time 0) Ts.missing = true
    ∧ pushConfirmPerSpec (Ts.time 0) Ts.missing = false
    ∧ pullNeedsConfirm (Ts.time 0) Ts.missing = true
    ∧ pullConfirmPerSpec (Ts.time 0) Ts.missing = false := by
  decide

/-! ### C4: `ensureDailySnapshot` -/

/-- C4 (amended): `ensureDaily` on an empty state is the identity on the store;
on a non-empty state whose metadata does not yet record today's day it creates
exactly one snapshot with reason "auto-diario" and records the day, and a
second call whose instant falls on the same **UTC** calendar day (the code
compares `toISOString().slice(0, 10)`, not local time) is a no-op. -/
theorem c4_ensure_daily (kv : KVStore) (st : RawState) (n1 n2 : Int) (id1 id2 : String) :
    (∀ (kv0 : KVStore) (st0 : RawState) (n : Int) (s : String),
        isStateEmpty st0 = true → ensureDailySnapshot kv0 st0 n s = kv0)
    ∧ (isStateEmpty st = false →
       (getMeta kv).lastSnapshotDay ≠ some (isoDayOf n1) →
       isoDayOf n2 = isoDayOf n1 →
         ensureDailySnapshot (ensureDailySnapshot kv st n1 id1) st n2 id2
             = ensureDailySnapshot kv st n1 id1
         ∧ listSnapshots (ensureDailySnapshot kv st n1 id1)
             = ((⟨id1, id1, "auto-diario"⟩ : SnapEntry) :: listSnapshots kv).take maxSnapshots
         ∧ (getMeta (ensureDailySnapshot kv st n1 id1)).lastSnapshotDay
             = some (isoDayOf n1)) := by
  constructor
  · intro kv0 st0 n s h
    simp [ensureDailySnapshot, h]
  · intro hne hday heq
    have hkv1 : ensureDailySnapshot kv st n1 id1
        = setMeta (createSnapshot kv st "auto-diario" id1).1
            { getMeta kv with lastSnapshotDay := some (isoDayOf n1) } := by
      simp [ensureDailySnapshot, hne, hday]
    refine ⟨?_, ?_, ?_⟩
    · rw [hkv1]
      simp only [ensureDailySnapshot, hne, Bool.false_eq_true, if_false, getMeta_setMeta, heq]
      simp
    · rw [hkv1, listSnapshots_setMeta, listSnapshots_createSnapshot]
      simp
    · rw [hkv1, getMeta_setMeta]

/-- C4 witness: a concrete run of both halves of the theorem. -/
theorem c4_ensure_daily_witness :
    ensureDailySnapshot emptyKV rawAbsent 0 "a" = emptyKV
    ∧ (isStateEmpty sampleRaw = false
       ∧ ensureDailySnapshot (ensureDailySnapshot emptyKV sampleRaw 0 "a") sampleRaw 5 "b"
           = ensureDailySnapshot emptyKV sampleRaw 0 "a"
       ∧ listSnapshots (ensureDailySnapshot emptyKV sampleRaw 0 "a")
           = ((⟨"a", "a", "auto-diario"⟩ : SnapEntry) :: listSnapshots emptyKV).take maxSnapshots) := by
  refine ⟨(c4_ensure_daily emptyKV rawAbsent 0 0 "a" "a").1 emptyKV rawAbsent 0 "a" (by decide),
    by decide, ?_, ?_⟩
  · exact ((c4_ensure_daily emptyKV sampleRaw 0 5 "a" "b").2 (by decide) (by decide)
      (by decide)).1
  · exact ((c4_ensure_daily emptyKV sampleRaw 0 5 "a" "b").2 (by decide) (by decide)
      (by decide)).2.1

/-- C4 counterexample: two `ensureDaily` calls whose instants fall on the same
**local** calendar day in a UTC-6 timezone (offset 360 minutes, as in
Guatemala) but on different UTC days create two "auto-diario" snapshots — the
claim's "compared as a date-only string in local time" predicts one. -/
theorem c4_counterexample :
    localDayOf 82800000 360 = localDayOf 97200000 360
    ∧ isStateEmpty sampleRaw = false
    ∧ (listSnapshots
        (ensureDailySnapshot (ensureDailySnapshot emptyKV sampleRaw 82800000 "a")
          sampleRaw 97200000 "b")).length = 2
    ∧ (listSnapshots
        (ensureDailySnapshot (ensureDailySnapshot emptyKV sampleRaw 82800000 "a")
          sampleRaw 97200000 "b")).all (fun e => e.reason == "auto-diario") = true := by
  refine ⟨by decide, by decide, ?_, ?_⟩ <;> rfl

/-! ### C5: pull rejects a mis-shaped remote state -/

/-- C5: when the remote document's state is missing any of the four required
array-typed collections, the pull aborts with a shape error before any write:
the store (hence the persisted state document and the whole metadata record,
including `lastSyncPullAt`) and the live state are returned unchanged. -/
theorem c5_pull_rejects_bad_shape (kv : KVStore) (live : RawState) (r : RemoteDoc)
    (rs : RawState) (confirmReplace : Bool) (nowMs : Int) (freshId : String) (metaWriteOk : Bool)
    (hstate : r.stateRaw = some rs)
    (hbad : rs.products = none ∨ rs.sales = none ∨ rs.expenses = none ∨ rs.tables = none) :
    pullStep kv live (some r) confirmReplace nowMs freshId metaWriteOk
        = (kv, live, .shapeError)
    ∧ getMeta (pullStep kv live (some r) confirmReplace nowMs freshId metaWriteOk).1
        = getMeta kv
    ∧ (pullStep kv live (some r) confirmReplace nowMs freshId metaWriteOk).1.stateDoc
        = kv.stateDoc := by
  have hshape : isValidStateShape rs = false := by
    rcases hbad with h | h | h | h <;> simp [isValidStateShape, h]
  have hmain : pullStep kv live (some r) confirmReplace nowMs freshId metaWriteOk
      = (kv, live, .shapeError) := by
    simp [pullStep, hstate, hshape]
  exact ⟨hmain, by rw [hmain], by rw [hmain]⟩

/-- C5 witness: a concrete remote document whose state lacks the `tables`
collection is rejected without touching the store. -/
theorem c5_pull_rejects_bad_shape_witness :
    (RemoteDoc.mk Ts.missing none
        (some ⟨none, none, some [], some [], some [], none⟩)).stateRaw
      = some ⟨none, none, some [], some [], some [], none⟩
    ∧ (⟨none, none, some [], some [], some [], none⟩ : RawState).tables = none
    ∧ pullStep emptyKV rawAbsent
        (some (RemoteDoc.mk Ts.missing none
          (some ⟨none, none, some [], some [], some [], none⟩))) true 0 "d" true
        = (emptyKV, rawAbsent, .shapeError) :=
  ⟨rfl, rfl,
    (c5_pull_rejects_bad_shape emptyKV rawAbsent _ _ true 0 "d" true rfl
      (Or.inr (Or.inr (Or.inr rfl)))).1⟩

/-! ### C6: `saveState` writes the state first; metadata is best-effort -/

/-- C6: the state document always reaches the store, even when the metadata
update fails (`metaWriteOk = false`); on a successful metadata update the three
bookkeeping fields are set from the options with defaults "now", the stored
(or freshly generated) device id, and "local". -/
theorem c6_save_state (kv : KVStore) (st : RawState) (o : SaveOptions)
    (nowMs : Int) (freshId : String) (metaWriteOk : Bool) :
    (saveState kv st o nowMs freshId metaWriteOk).stateDoc = some st
    ∧ (getMeta (saveState kv st o nowMs freshId true)).stateUpdatedAt
        = tsOr o.updatedAt (.time nowMs)
    ∧ (getMeta (saveState kv st o nowMs freshId true)).stateUpdatedBy
        = some (jsOrStr o.updatedBy (jsOrStr (getMeta kv).deviceId freshId))
    ∧ (getMeta (saveState kv st o nowMs freshId true)).stateUpdatedSource
        = some (jsOrStr o.source "local")
    ∧ (getMeta (saveState kv st o nowMs freshId true)).deviceId
        = some (jsOrStr (getMeta kv).deviceId freshId) := by
  refine ⟨?_, rfl, rfl, rfl, rfl⟩
  cases metaWriteOk <;> rfl

/-! ### Helper lemmas for the handler theorems -/

theorem length_filter_not_add_countP {α : Type} (p : α → Bool) (l : List α) :
    (l.filter (fun a => !(p a))).length + l.countP p = l.length := by
  induction l with
  | nil => rfl
  | cons a l ih =>
    by_cases h : p a = true <;>
      simp [List.filter_cons, List.countP_cons, h] <;> omega

theorem find?_updateFirstProduct (l : List Product) (pid : Int) (f : Product → Product)
    (hpres : ∀ q : Product, (q.id == pid) = true → ((f q).id == pid) = true) :
    ∀ p, l.find? (fun x => x.id == pid) = some p →
      (updateFirstProduct l pid f).find? (fun x => x.id == pid) = some (f p) := by
  induction l with
  | nil => intro p h; simp at h
  | cons a rest ih =>
    intro p h
    by_cases ha : (a.id == pid) = true
    · rw [List.find?_cons_of_pos (p := fun x : Product => x.id == pid) rest ha] at h
      injection h with h
      subst h
      unfold updateFirstProduct
      rw [if_pos ha]
      exact List.find?_cons_of_pos (p := fun x : Product => x.id == pid) _ (hpres a ha)
    · rw [List.find?_cons_of_neg (p := fun x : Product => x.id == pid) rest ha] at h
      unfold updateFirstProduct
      rw [if_neg ha, List.find?_cons_of_neg (p := fun x : Product => x.id == pid) _ ha]
      exact ih p h

theorem mem_updateFirstProduct (l : List Product) (pid : Int) (f : Product → Product)
    (q : Product) :
    q ∈ updateFirstProduct l pid f → q ∈ l ∨ ∃ p, p ∈ l ∧ q = f p := by
  induction l with
  | nil => intro h; simp [updateFirstProduct] at h
  | cons a rest ih =>
    intro h
    unfold updateFirstProduct at h
    by_cases ha : (a.id == pid) = true
    · rw [if_pos ha] at h
      rcases List.mem_cons.mp h with h1 | h1
      · exact Or.inr ⟨a, List.mem_cons_self a rest, h1⟩
      · exact Or.inl (List.mem_cons_of_mem _ h1)
    · rw [if_neg ha] at h
      rcases List.mem_cons.mp h with h1 | h1
      · exact Or.inl (by simp [h1])
      · rcases ih h1 with h2 | ⟨p, hp, he⟩
        · exact Or.inl (List.mem_cons_of_mem _ h2)
        · exact Or.inr ⟨p, List.mem_cons_of_mem _ hp, he⟩

theorem le_clampInt (v : RawNum) (lo hi : Int) (h : lo ≤ hi) : lo ≤ clampInt v lo hi := by
  cases v with
  | num q => exact le_min h (le_max_left _ _)
  | absent => exact le_refl _
  | nan => exact le_refl _

theorem foldl_preserve {α β : Type} (f : β → α → β) (Q : β → Prop)
    (hf : ∀ b a, Q b → Q (f b a)) : ∀ (l : List α) (b : β), Q b → Q (l.foldl f b) := by
  intro l
  induction l with
  | nil => intro b hb; exact hb
  | cons a l ih => intro b hb; exact ih (f b a) (hf b a hb)

/-! ### C8: recording a sale -/

/-- C8: with the product found, a sale of effective quantity `q` (the clamped
form input) is rejected exactly when `stock < q`; otherwise it appends a sale
with `total = q * price`, `profit = q * (price - cost)`, unit price/cost frozen
from the product, and decrements the found product's stock by `q`. -/
theorem c8_record_sale (st : DomainState) (pid : Int) (qtyRaw : RawNum) (notesRaw : String)
    (nid : Int) (now : String) (p : Product)
    (hfind : st.products.find? (fun x => x.id == pid) = some p) :
    (p.stock < clampInt qtyRaw 1 1000000 →
        recordSale st pid qtyRaw notesRaw nid now = (st, none))
    ∧ (clampInt qtyRaw 1 1000000 ≤ p.stock →
        recordSale st pid qtyRaw notesRaw nid now
          = ({ st with
                sales := st.sales ++
                  [{ id := nid, at_ := now, productId := p.id,
                     qty := clampInt qtyRaw 1 1000000, unitPrice := p.price, unitCost := p.cost,
                     total := (clampInt qtyRaw 1 1000000 : Rat) * p.price,
                     profit := (clampInt qtyRaw 1 1000000 : Rat) * (p.price - p.cost),
                     notes := if jsTrim notesRaw = "" then none else some (jsTrim notesRaw) }]
                products := updateFirstProduct st.products pid
                  (fun q => { q with stock := q.stock - clampInt qtyRaw 1 1000000 }) },
             some { id := nid, at_ := now, productId := p.id,
                    qty := clampInt qtyRaw 1 1000000, unitPrice := p.price, unitCost := p.cost,
                    total := (clampInt qtyRaw 1 1000000 : Rat) * p.price,
                    profit := (clampInt qtyRaw 1 1000000 : Rat) * (p.price - p.cost),
                    notes := if jsTrim notesRaw = "" then none else some (jsTrim notesRaw) })
        ∧ (recordSale st pid qtyRaw notesRaw nid now).1.products.find?
              (fun x => x.id == pid)
            = some { p with stock := p.stock - clampInt qtyRaw 1 1000000 }) := by
  constructor
  · intro h
    unfold recordSale
    rw [hfind]
    simp only [if_pos h]
  · intro h
    have hnot : ¬(p.stock < clampInt qtyRaw 1 1000000) := not_lt.mpr h
    have hrec : recordSale st pid qtyRaw notesRaw nid now
        = ({ st with
              sales := st.sales ++
                [{ id := nid, at_ := now, productId := p.id,
                   qty := clampInt qtyRaw 1 1000000, unitPrice := p.price, unitCost := p.cost,
                   total := (clampInt qtyRaw 1 1000000 : Rat) * p.price,
                   profit := (clampInt qtyRaw 1 1000000 : Rat) * (p.price - p.cost),
                   notes := if jsTrim notesRaw = "" then none else some (jsTrim notesRaw) }]
              products := updateFirstProduct st.products pid
                (fun q => { q with stock := q.stock - clampInt qtyRaw 1 1000000 }) },
           some { id := nid, at_ := now, productId := p.id,
                  qty := clampInt qtyRaw 1 1000000, unitPrice := p.price, unitCost := p.cost,
                  total := (clampInt qtyRaw 1 1000000 : Rat) * p.price,
                  profit := (clampInt qtyRaw 1 1000000 : Rat) * (p.price - p.cost),
                  notes := if jsTrim notesRaw = "" then none else some (jsTrim notesRaw) }) := by
      unfold recordSale
      rw [hfind]
      simp only [if_neg hnot]
    refine ⟨hrec, ?_⟩
    rw [hrec]
    exact find?_updateFirstProduct st.products pid
      (fun q => { q with stock := q.stock - clampInt qtyRaw 1 1000000 })
      (fun q hq => hq) p hfind

/-- C8 witness: the spec's Soda scenario — cost 5, price 8, stock 10, sale of
qty 3 yields total 24, profit 9, and stock 7. -/
theorem c8_record_sale_witness :
    sampleState.products.find? (fun x => x.id == 1)
      = some { id := 1, name := "Soda", category := "bebida", cost := 5, price := 8,
               stock := 10, stockMin := 2 }
    ∧ clampInt (RawNum.num 3) 1 1000000 ≤ (10 : Int)
    ∧ (recordSale sampleState 1 (RawNum.num 3) "" 99 "t3").2
        = some { id := 99, at_ := "t3", productId := 1, qty := 3, unitPrice := 8, unitCost := 5,
                 total := 24, profit := 9, notes := none }
    ∧ (recordSale sampleState 1 (RawNum.num 3) "" 99 "t3").1.products.find?
          (fun x => x.id == 1)
        = some { id := 1, name := "Soda", category := "bebida", cost := 5, price := 8,
                 stock := 7, stockMin := 2 } := by
  have h := (c8_record_sale sampleState 1 (RawNum.num 3) "" 99 "t3"
    { id := 1, name := "Soda", category := "bebida", cost := 5, price := 8,
      stock := 10, stockMin := 2 } (by decide)).2 (by decide)
  refine ⟨by decide, by decide, ?_, ?_⟩
  · rw [h.1, show clampInt (RawNum.num 3) 1 1000000 = 3 from rfl,
      show (jsTrim "" : String) = "" from rfl]
    norm_num
  · exact h.2.trans (by decide)

/-! ### C9: active table sessions -/

/-- C9 (amended): starting a table whose number already has an active session
leaves the state unchanged, and the tableForm operation preserves the at most
one active session per table invariant; the Legacy Importer, however, does not
guarantee the invariant (see the counterexample). -/
theorem c9_table_sessions (st : DomainState) (tableRaw playersRaw rateRaw : RawNum)
    (nid : Int) (now : String) :
    ((st.tables.find? (fun t => t.active && t.table == clampInt tableRaw 1 100)).isSome = true →
        startTable st tableRaw playersRaw rateRaw nid now = st)
    ∧ (UniqueActiveTables st.tables →
        UniqueActiveTables (startTable st tableRaw playersRaw rateRaw nid now).tables) := by
  constructor
  · intro h
    unfold startTable
    by_cases h1 : (!decide (parseMoney rateRaw > 0)) = true
    · rw [if_pos h1]
    · rw [if_neg h1, if_pos h]
  · intro hu
    unfold startTable
    by_cases h1 : (!decide (parseMoney rateRaw > 0)) = true
    · rw [if_pos h1]; exact hu
    · rw [if_neg h1]
      by_cases h2 : (st.tables.find?
          (fun t => t.active && t.table == clampInt tableRaw 1 100)).isSome = true
      · rw [if_pos h2]; exact hu
      · rw [if_neg h2]
        have hnone : st.tables.find? (fun t => t.active && t.table == clampInt tableRaw 1 100)
            = none := by
          cases hf : st.tables.find? (fun t => t.active && t.table == clampInt tableRaw 1 100)
          · rfl
          · rw [hf] at h2; simp at h2
        have hall := List.find?_eq_none.mp hnone
        show UniqueActiveTables (st.tables ++ [_])
        rw [UniqueActiveTables, List.pairwise_append]
        refine ⟨hu, List.pairwise_singleton _ _, ?_⟩
        intro a ha b hb hact hbact
        rw [List.mem_singleton.mp hb]
        intro heqtab
        exact hall a ha (by simp [hact, heqtab])

/-- C9 witness: starting table 1 while table 1 is active is rejected and the
invariant is preserved. -/
theorem c9_table_sessions_witness :
    (sampleState.tables.find?
        (fun t => t.active && t.table == clampInt (RawNum.num 1) 1 100)).isSome = true
    ∧ startTable sampleState (RawNum.num 1) (RawNum.num 2) (RawNum.num 10) 50 "t9" = sampleState
    ∧ UniqueActiveTables
        (startTable sampleState (RawNum.num 1) (RawNum.num 2) (RawNum.num 10) 50 "t9").tables :=
  ⟨by decide,
    (c9_table_sessions sampleState (RawNum.num 1) (RawNum.num 2) (RawNum.num 10) 50 "t9").1
      (by decide),
    (c9_table_sessions sampleState (RawNum.num 1) (RawNum.num 2) (RawNum.num 10) 50 "t9").2
      (by decide)⟩

/-- C9 counterexample: two legacy records for mesa 1, neither explicitly
inactive, are both imported as active sessions for table 1 — the importer does
not preserve the at most one active session per table invariant. -/
theorem c9_counterexample :
    (migrateLegacy rawAbsent none none
        (some [⟨none, RawNum.num 1, RawNum.num 2, RawNum.num 10, none⟩,
               ⟨none, RawNum.num 1, RawNum.num 2, RawNum.num 10, none⟩])
        (fun n => (n : Int)) "now").map
        (fun next => next.tables.countP (fun t => t.active && t.table == 1)) = some 2
    ∧ (migrateLegacy rawAbsent none none
        (some [⟨none, RawNum.num 1, RawNum.num 2, RawNum.num 10, none⟩,
               ⟨none, RawNum.num 1, RawNum.num 2, RawNum.num 10, none⟩])
        (fun n => (n : Int)) "now").map
        (fun next => decide (UniqueActiveTables next.tables)) = some false := by
  exact ⟨rfl, rfl⟩

/-! ### C10: deleting a sale -/

/-- C10: deleting a sale (found, confirmed, with a unique id) removes exactly
that sale from the sales sequence and changes no other collection — in
particular product stock is not restored. -/
theorem c10_delete_sale (st : DomainState) (saleId : Int) (c : Bool) (s0 : Sale)
    (hfind : st.sales.find? (fun s => s.id == saleId) = some s0)
    (hcount : st.sales.countP (fun s => s.id == saleId) = 1) :
    (deleteSale st saleId c).products = st.products
    ∧ (deleteSale st saleId c).expenses = st.expenses
    ∧ (deleteSale st saleId c).tables = st.tables
    ∧ (deleteSale st saleId c).business = st.business
    ∧ (deleteSale st saleId true).sales = st.sales.filter (fun s => !(s.id == saleId))
    ∧ (deleteSale st saleId true).sales.length + 1 = st.sales.length
    ∧ (∀ s ∈ st.sales, (s.id == saleId) = false → s ∈ (deleteSale st saleId true).sales)
    ∧ (∀ s ∈ (deleteSale st saleId true).sales, (s.id == saleId) = false) := by
  have hdel : deleteSale st saleId true
      = { st with sales := st.sales.filter (fun s => !(s.id == saleId)) } := by
    unfold deleteSale
    rw [hfind]
    rfl
  refine ⟨?_, ?_, ?_, ?_, ?_, ?_, ?_, ?_⟩
  · unfold deleteSale; rw [hfind]; cases c <;> rfl
  · unfold deleteSale; rw [hfind]; cases c <;> rfl
  · unfold deleteSale; rw [hfind]; cases c <;> rfl
  · unfold deleteSale; rw [hfind]; cases c <;> rfl
  · rw [hdel]
  · rw [hdel]
    have h := length_filter_not_add_countP (fun s => s.id == saleId) st.sales
    rw [hcount] at h
    exact h
  · intro s hs hne
    rw [hdel]
    exact List.mem_filter.mpr ⟨hs, by simp [hne]⟩
  · intro s hs
    rw [hdel] at hs
    have := (List.mem_filter.mp hs).2
    simpa using this

/-- C10 witness: deleting sale 7 from the sample state. -/
theorem c10_delete_sale_witness :
    sampleState.sales.find? (fun s => s.id == 7)
      = some { id := 7, at_ := "t1", productId := 1, qty := 1, unitPrice := 8, unitCost := 5,
               total := 8, profit := 3, notes := none }
    ∧ sampleState.sales.countP (fun s => s.id == 7) = 1
    ∧ (deleteSale sampleState 7 true).products = sampleState.products
    ∧ (deleteSale sampleState 7 true).tables = sampleState.tables
    ∧ (deleteSale sampleState 7 true).sales
        = sampleState.sales.filter (fun s => !(s.id == 7))
    ∧ (deleteSale sampleState 7 true).sales.length + 1 = sampleState.sales.length := by
  have h := c10_delete_sale sampleState 7 true
    { id := 7, at_ := "t1", productId := 1, qty := 1, unitPrice := 8, unitCost := 5,
      total := 8, profit := 3, notes := none } (by decide) (by decide)
  exact ⟨by decide, by decide, h.1, h.2.2.1, h.2.2.2.2.1, h.2.2.2.2.2.1⟩

/-! ### C7: product invariants -/

theorem migProductStep_stock (gen : Nat → Int) (acc : MigAcc) (lp : LegacyProduct)
    (h : ∀ p ∈ acc.products, 0 ≤ p.stock ∧ 0 ≤ p.stockMin) :
    ∀ p ∈ (migProductStep gen acc lp).products, 0 ≤ p.stock ∧ 0 ≤ p.stockMin := by
  unfold migProductStep
  by_cases hname : jsTrim (jsOrStr lp.nombre (jsOrStr lp.name "")) = ""
  · rw [if_pos hname]; exact h
  · rw [if_neg hname]
    intro p hp
    rcases List.mem_append.mp hp with h1 | h1
    · exact h p h1
    · rw [List.mem_singleton.mp h1]
      exact ⟨le_clampInt _ 0 1000000 (by omega), le_clampInt _ 0 1000000 (by omega)⟩

theorem migSaleStep_stock (gen : Nat → Int) (now : String) (acc : MigAcc) (ls : LegacySale)
    (h : ∀ p ∈ acc.products, 0 ≤ p.stock ∧ 0 ≤ p.stockMin) :
    ∀ p ∈ (migSaleStep gen now acc ls).products, 0 ≤ p.stock ∧ 0 ≤ p.stockMin := by
  intro p hp
  simp only [migSaleStep] at hp
  cases hlook : List.lookup
      (normalizeName (jsTrim (jsOrStr ls.producto (jsOrStr ls.product "")))) acc.byName with
  | some product =>
    rw [hlook] at hp
    exact h p hp
  | none =>
    rw [hlook] at hp
    rcases List.mem_append.mp hp with h1 | h1
    · exact h p h1
    · rw [List.mem_singleton.mp h1]
      exact ⟨le_refl 0, le_refl 0⟩

theorem migTableStep_stock (gen : Nat → Int) (now : String) (acc : MigAcc) (lt : LegacyTable)
    (h : ∀ p ∈ acc.products, 0 ≤ p.stock ∧ 0 ≤ p.stockMin) :
    ∀ p ∈ (migTableStep gen now acc lt).products, 0 ≤ p.stock ∧ 0 ≤ p.stockMin := by
  unfold migTableStep
  by_cases ha : lt.activa = some false
  · rw [if_pos ha]; exact h
  · rw [if_neg ha]; exact h

/-- C7 (amended): every product added or edited through the product form
satisfies all three invariants (`price ≥ cost`, `stock ≥ 0`, `stockMin ≥ 0`);
every product produced by the Legacy Importer satisfies `stock ≥ 0` and
`stockMin ≥ 0` — but the importer does **not** guarantee `price ≥ cost` (see
the counterexample). -/
theorem c7_product_invariants (st : DomainState) (inp : ProductFormInput) (newId : Int) :
    ((∀ p ∈ st.products, ProdInv p) → ∀ p ∈ (submitProduct st inp newId).products, ProdInv p)
    ∧ (∀ (state : RawState) (lps : Option (List LegacyProduct))
        (lss : Option (List LegacySale)) (lts : Option (List LegacyTable))
        (gen : Nat → Int) (now : String) (next : DomainState),
        migrateLegacy state lps lss lts gen now = some next →
        ∀ p ∈ next.products, 0 ≤ p.stock ∧ 0 ≤ p.stockMin) := by
  constructor
  · intro h
    unfold submitProduct
    by_cases hn : jsTrim inp.name = ""
    · rw [if_pos hn]; exact h
    · rw [if_neg hn]
      by_cases hv : (!decide (parseMoney inp.cost ≥ 0) || !decide (parseMoney inp.price ≥ 0)
          || decide (parseMoney inp.price < parseMoney inp.cost)) = true
      · rw [if_pos hv]; exact h
      · rw [if_neg hv]
        have hcp : parseMoney inp.cost ≤ parseMoney inp.price := by
          by_cases hlt : parseMoney inp.price < parseMoney inp.cost
          · exact absurd (by simp [hlt]) hv
          · exact not_lt.mp hlt
        by_cases hid : inp.id ≠ 0
        · rw [if_pos hid]
          by_cases hfind : (st.products.find? (fun x => x.id == inp.id)).isSome = true
          · rw [if_pos hfind]
            intro p hp
            rcases mem_updateFirstProduct st.products inp.id _ p hp with h1 | ⟨p0, hp0, he⟩
            · exact h p h1
            · rw [he]
              exact ⟨hcp, le_clampInt _ 0 1000000 (by omega), le_clampInt _ 0 1000000 (by omega)⟩
          · rw [if_neg hfind]; exact h
        · rw [if_neg hid]
          intro p hp
          rcases List.mem_append.mp hp with h1 | h1
          · exact h p h1
          · rw [List.mem_singleton.mp h1]
            exact ⟨hcp, le_clampInt _ 0 1000000 (by omega), le_clampInt _ 0 1000000 (by omega)⟩
  · intro state lps lss lts gen now next hmig
    simp only [migrateLegacy] at hmig
    split at hmig
    · cases hmig
    · split at hmig
      · cases hmig
      · injection hmig with hmig
        subst hmig
        intro p hp
        have hQ := foldl_preserve (migTableStep gen now)
          (fun acc => ∀ q ∈ acc.products, 0 ≤ q.stock ∧ 0 ≤ q.stockMin)
          (fun b a hb => migTableStep_stock gen now b a hb) (lts.getD [])
          (List.foldl (migSaleStep gen now)
            (List.foldl (migProductStep gen)
              { products := [], byName := [], sales := [], tables := [], k := 0 }
              (lps.getD [])) (lss.getD []))
          (foldl_preserve (migSaleStep gen now)
            (fun acc => ∀ q ∈ acc.products, 0 ≤ q.stock ∧ 0 ≤ q.stockMin)
            (fun b a hb => migSaleStep_stock gen now b a hb) (lss.getD [])
            (List.foldl (migProductStep gen)
              { products := [], byName := [], sales := [], tables := [], k := 0 }
              (lps.getD []))
            (foldl_preserve (migProductStep gen)
              (fun acc => ∀ q ∈ acc.products, 0 ≤ q.stock ∧ 0 ≤ q.stockMin)
              (fun b a hb => migProductStep_stock gen b a hb) (lps.getD [])
              { products := [], byName := [], sales := [], tables := [], k := 0 }
              (by intro q hq; simp at hq)))
        exact hQ p hp

/-- C7 witness: a valid product-form submission keeps the invariants, and a
concrete legacy import produces products with non-negative stocks. -/
theorem c7_product_invariants_witness :
    (∀ p ∈ sampleState.products, ProdInv p)
    ∧ (∀ p ∈ (submitProduct sampleState
          { id := 0, name := "Agua", category := "bebida", cost := RawNum.num 2,
            price := RawNum.num 4, stock := RawNum.num 6, stockMin := RawNum.num 1 }
          77).products, ProdInv p)
    ∧ migrateLegacy rawAbsent
        (some [{ nombre := some "cafe", name := none, categoria := none,
                 costo := RawNum.num 10, precio := RawNum.num 5, stock := RawNum.num 0,
                 stockMinimo := RawNum.num 0 }]) none none (fun n => (n : Int)) "now"
        = some { version := 1, business := emptyState.business,
                 products := [{ id := 0, name := "cafe", category := "otro", cost := 10,
                                price := 5, stock := 0, stockMin := 0 }],
                 sales := [], expenses := [], tables := [] }
    ∧ (∀ p ∈ ({ version := 1, business := emptyState.business,
                products := [{ id := 0, name := "cafe", category := "otro", cost := 10,
                               price := 5, stock := 0, stockMin := 0 }],
                sales := [], expenses := [], tables := [] } : DomainState).products,
          0 ≤ p.stock ∧ 0 ≤ p.stockMin) := by
  refine ⟨by decide, ?_, by decide, ?_⟩
  · exact (c7_product_invariants sampleState
      { id := 0, name := "Agua", category := "bebida", cost := RawNum.num 2,
        price := RawNum.num 4, stock := RawNum.num 6, stockMin := RawNum.num 1 } 77).1
      (by decide)
  · exact (c7_product_invariants sampleState
      { id := 0, name := "Agua", category := "bebida", cost := RawNum.num 2,
        price := RawNum.num 4, stock := RawNum.num 6, stockMin := RawNum.num 1 } 77).2
      rawAbsent
      (some [{ nombre := some "cafe", name := none, categoria := none,
               costo := RawNum.num 10, precio := RawNum.num 5, stock := RawNum.num 0,
               stockMinimo := RawNum.num 0 }]) none none (fun n => (n : Int)) "now" _
      (by decide)

/-- C7 counterexample: the Legacy Importer copies a legacy product with
`costo = 10`, `precio = 5` verbatim, producing a Product with `price < cost` —
the claimed invariant `price ≥ cost` does not hold for importer-produced
products. -/
theorem c7_counterexample :
    (migrateLegacy rawAbsent
        (some [{ nombre := some "cafe", name := none, categoria := none,
                 costo := RawNum.num 10, precio := RawNum.num 5, stock := RawNum.num 0,
                 stockMinimo := RawNum.num 0 }]) none none (fun n => (n : Int)) "now").map
        (fun next => next.products.any (fun p => decide (p.price < p.cost))) = some true := by
  decide

/-! ### C3: snapshot retention -/

theorem snapInv_step (calls : List (String × RawState)) (kv : KVStore) (c : String × RawState)
    (hinv : SnapInv calls kv)
    (hnotin : c.1 ∉ calls.map Prod.fst)
    (hneAll : ∀ d ∈ calls, d.1 ≠ "")
    (hnodup : (calls.map Prod.fst).Nodup) :
    SnapInv (calls ++ [c]) ((createSnapshot kv c.2 "manual" c.1).1) := by
  obtain ⟨hidx, hbody, hnone⟩ := hinv
  have hWsub : ∀ d ∈ recentWindow calls, d ∈ calls := by
    intro d hd
    exact List.mem_reverse.mp (List.mem_of_mem_take hd)
  have hWids : (recentWindow calls).map Prod.fst
      = ((calls.map Prod.fst).reverse).take maxSnapshots := by
    unfold recentWindow
    rw [List.map_take, List.map_reverse]
  have hWnodup : ((recentWindow calls).map Prod.fst).Nodup := by
    rw [hWids]
    exact List.Nodup.sublist (List.take_sublist _ _) (List.nodup_reverse.mpr hnodup)
  have hWlen : (recentWindow calls).length = min maxSnapshots calls.length := by
    unfold recentWindow
    rw [List.length_take, List.length_reverse]
  have hkey : createSnapshot kv c.2 "manual" c.1
      = ({ (trimSnapshots (entryOfCall c :: (recentWindow calls).map entryOfCall)
              (putSnap kv c.1 (snapOfCall c))).2
           with snapshotIndexDoc :=
             some (trimSnapshots (entryOfCall c :: (recentWindow calls).map entryOfCall)
               (putSnap kv c.1 (snapOfCall c))).1 },
         snapOfCall c) := by
    simp only [createSnapshot, listSnapshots_putSnap]
    rw [hidx]
    rfl
  by_cases hlen : calls.length < maxSnapshots
  · -- the index still has room: the trim loop does nothing
    have htrim := trimSnapshots_of_le
      (entryOfCall c :: (recentWindow calls).map entryOfCall)
      (putSnap kv c.1 (snapOfCall c))
      (by simp only [List.length_cons, List.length_map]; omega)
    have hW' : recentWindow (calls ++ [c]) = c :: recentWindow calls := by
      unfold recentWindow
      rw [List.reverse_append]
      simp only [List.reverse_cons, List.reverse_nil, List.nil_append, List.singleton_append]
      rw [List.take_cons (by decide : 0 < maxSnapshots)]
      congr 1
      rw [List.take_of_length_le (l := calls.reverse) (i := maxSnapshots - 1)
          (by rw [List.length_reverse]; simp only [maxSnapshots] at hlen ⊢; omega),
        List.take_of_length_le (l := calls.reverse) (i := maxSnapshots)
          (by rw [List.length_reverse]; simp only [maxSnapshots] at hlen ⊢; omega)]
    rw [hkey, htrim]
    refine ⟨?_, ?_, ?_⟩
    · rw [hW']
      rfl
    · intro d hd
      rw [hW'] at hd
      rcases List.mem_cons.mp hd with heq | hdW
      · rw [heq]
        show (if c.1 = c.1 then some (snapOfCall c) else kv.snaps c.1) = some (snapOfCall c)
        rw [if_pos rfl]
      · have hdc : d.1 ≠ c.1 := fun he =>
          hnotin (he ▸ List.mem_map_of_mem Prod.fst (hWsub d hdW))
        show (if d.1 = c.1 then some (snapOfCall c) else kv.snaps d.1) = some (snapOfCall d)
        rw [if_neg hdc]
        exact hbody d hdW
    · intro id hid
      rw [hW'] at hid
      have hid1 : id ≠ c.1 := fun he => hid (by rw [List.map_cons]; exact he ▸ List.mem_cons_self _ _)
      have hid2 : id ∉ (recentWindow calls).map Prod.fst := fun hm =>
        hid (by rw [List.map_cons]; exact List.mem_cons_of_mem _ hm)
      show (if id = c.1 then some (snapOfCall c) else kv.snaps id) = none
      rw [if_neg hid1]
      exact hnone id hid2
  · -- the window is full: the last entry is popped and its body deleted
    have hW20 : (recentWindow calls).length = maxSnapshots := by rw [hWlen]; omega
    have hWne : recentWindow calls ≠ [] := by
      intro he
      rw [he] at hW20
      simp [maxSnapshots] at hW20
    have hWsplit : recentWindow calls
        = (recentWindow calls).dropLast ++ [(recentWindow calls).getLast hWne] :=
      (List.dropLast_append_getLast hWne).symm
    have hrcalls : (recentWindow calls).getLast hWne ∈ calls :=
      hWsub _ (List.getLast_mem hWne)
    have hrne : ((recentWindow calls).getLast hWne).1 ≠ "" := hneAll _ hrcalls
    have hrc : ((recentWindow calls).getLast hWne).1 ≠ c.1 := fun he =>
      hnotin (he ▸ List.mem_map_of_mem Prod.fst hrcalls)
    have hidx1 : entryOfCall c :: (recentWindow calls).map entryOfCall
        = (entryOfCall c :: ((recentWindow calls).dropLast).map entryOfCall)
          ++ [entryOfCall ((recentWindow calls).getLast hWne)] := by
      conv_lhs => rw [hWsplit]
      rw [List.map_append]
      rfl
    have hlast : (entryOfCall c :: (recentWindow calls).map entryOfCall).getLast?
        = some (entryOfCall ((recentWindow calls).getLast hWne)) := by
      rw [hidx1]
      exact List.getLast?_concat _
    have hlen21 : (entryOfCall c :: (recentWindow calls).map entryOfCall).length
        = maxSnapshots + 1 := by
      simp only [List.length_cons, List.length_map]
      omega
    have htrim := trimSnapshots_eq21 _ (putSnap kv c.1 (snapOfCall c))
      (entryOfCall ((recentWindow calls).getLast hWne)) hlen21 hlast
    have hids : (recentWindow calls).map Prod.fst
        = ((recentWindow calls).dropLast).map Prod.fst
          ++ [((recentWindow calls).getLast hWne).1] := by
      conv_lhs => rw [hWsplit]
      rw [List.map_append]
      rfl
    have hW' : recentWindow (calls ++ [c]) = c :: (recentWindow calls).dropLast := by
      unfold recentWindow
      rw [List.reverse_append]
      simp only [List.reverse_cons, List.reverse_nil, List.nil_append, List.singleton_append]
      rw [List.take_cons (by decide : 0 < maxSnapshots)]
      congr 1
      have hXlen : (calls.reverse.take maxSnapshots).length = maxSnapshots := by
        rw [List.length_take, List.length_reverse]
        omega
      rw [List.dropLast_eq_take, hXlen, List.take_take, Nat.min_eq_left (by omega)]
    rw [hkey, htrim, if_neg (show ¬(entryOfCall ((recentWindow calls).getLast hWne)).id = ""
      from hrne)]
    rw [show (entryOfCall c :: (recentWindow calls).map entryOfCall).dropLast
        = entryOfCall c :: ((recentWindow calls).dropLast).map entryOfCall from by
      rw [hidx1]; exact List.dropLast_concat]
    refine ⟨?_, ?_, ?_⟩
    · rw [hW']
      rfl
    · intro d hd
      rw [hW'] at hd
      rcases List.mem_cons.mp hd with heq | hdW
      · rw [heq]
        show (if c.1 = (entryOfCall ((recentWindow calls).getLast hWne)).id then none
            else if c.1 = c.1 then some (snapOfCall c) else kv.snaps c.1) = some (snapOfCall c)
        rw [if_neg (show ¬(c.1 = (entryOfCall ((recentWindow calls).getLast hWne)).id)
          from fun he => hrc he.symm), if_pos rfl]
      · have hdW' : d ∈ recentWindow calls := (List.dropLast_sublist _).subset hdW
        have hdc : d.1 ≠ c.1 := fun he =>
          hnotin (he ▸ List.mem_map_of_mem Prod.fst (hWsub d hdW'))
        have hdr : d.1 ≠ ((recentWindow calls).getLast hWne).1 := by
          intro he
          have hn2 := hWnodup
          rw [hids] at hn2
          rcases List.nodup_append.mp hn2 with ⟨-, -, hdisj⟩
          exact hdisj (List.mem_map_of_mem Prod.fst hdW) (by rw [he]; exact List.mem_singleton.mpr rfl)
        show (if d.1 = (entryOfCall ((recentWindow calls).getLast hWne)).id then none
            else if d.1 = c.1 then some (snapOfCall c) else kv.snaps d.1) = some (snapOfCall d)
        rw [if_neg (show ¬(d.1 = (entryOfCall ((recentWindow calls).getLast hWne)).id)
          from hdr), if_neg hdc]
        exact hbody d hdW'
    · intro id hid
      rw [hW'] at hid
      have hid1 : id ≠ c.1 := fun he => hid (by rw [List.map_cons]; exact he ▸ List.mem_cons_self _ _)
      have hid2 : id ∉ ((recentWindow calls).dropLast).map Prod.fst := fun hm =>
        hid (by rw [List.map_cons]; exact List.mem_cons_of_mem _ hm)
      by_cases hidr : id = ((recentWindow calls).getLast hWne).1
      · show (if id = (entryOfCall ((recentWindow calls).getLast hWne)).id then none
            else if id = c.1 then some (snapOfCall c) else kv.snaps id) = none
        rw [if_pos (show id = (entryOfCall ((recentWindow calls).getLast hWne)).id from hidr)]
      · show (if id = (entryOfCall ((recentWindow calls).getLast hWne)).id then none
            else if id = c.1 then some (snapOfCall c) else kv.snaps id) = none
        rw [if_neg (show ¬(id = (entryOfCall ((recentWindow calls).getLast hWne)).id)
          from hidr), if_neg hid1]
        apply hnone
        intro hm
        rw [hids] at hm
        rcases List.mem_append.mp hm with h | h
        · exact hid2 h
        · exact hidr (List.mem_singleton.mp h)

theorem runCreates_inv : ∀ (calls : List (String × RawState)),
    (calls.map Prod.fst).Nodup → (∀ c ∈ calls, c.1 ≠ "") →
    SnapInv calls (runCreates calls) := by
  intro calls
  induction calls using List.reverseRecOn with
  | nil =>
    intro _ _
    exact ⟨rfl, fun d hd => absurd hd (by simp [recentWindow]), fun id _ => rfl⟩
  | append_singleton rest c ih =>
    intro hnodup hne
    rw [List.map_append] at hnodup
    rcases List.nodup_append.mp hnodup with ⟨h1, -, hdisj⟩
    have hnotin : c.1 ∉ rest.map Prod.fst := fun hm =>
      hdisj hm (by simp)
    have base := ih h1 (fun d hd => hne d (List.mem_append_left _ hd))
    have step := snapInv_step rest (runCreates rest) c base hnotin
      (fun d hd => hne d (List.mem_append_left _ hd)) h1
    rw [show runCreates (rest ++ [c]) = (createSnapshot (runCreates rest) c.2 "manual" c.1).1
      from by unfold runCreates; rw [List.foldl_append]; rfl]
    exact step

/-- C3: starting from an empty store, after any sequence of `createSnapshot`
calls with distinct non-empty timestamp ids, the snapshot index has length
`min N 20`, lists the most recent calls newest-first (the just-created snapshot
at the front), the bodies of the windowed snapshots are retrievable with the
captured state, and the bodies of trimmed-off older snapshots are deleted. -/
theorem c3_snapshot_retention (calls : List (String × RawState))
    (hnodup : (calls.map Prod.fst).Nodup)
    (hne : ∀ c ∈ calls, c.1 ≠ "") :
    (listSnapshots (runCreates calls)).length = min calls.length maxSnapshots
    ∧ listSnapshots (runCreates calls) = (recentWindow calls).map entryOfCall
    ∧ (∀ c ∈ recentWindow calls, getSnap (runCreates calls) c.1 = some (snapOfCall c))
    ∧ (∀ c ∈ calls.reverse.drop maxSnapshots, getSnap (runCreates calls) c.1 = none)
    ∧ (∀ (rest : List (String × RawState)) (c : String × RawState), calls = rest ++ [c] →
        (listSnapshots (runCreates calls)).head? = some (entryOfCall c)) := by
  obtain ⟨hidx, hbody, hnone⟩ := runCreates_inv calls hnodup hne
  refine ⟨?_, hidx, hbody, ?_, ?_⟩
  · rw [hidx, List.length_map]
    unfold recentWindow
    rw [List.length_take, List.length_reverse, Nat.min_comm]
  · intro c hc
    apply hnone
    intro hm
    have hrevNodup : ((calls.map Prod.fst).reverse).Nodup := List.nodup_reverse.mpr hnodup
    have h2 : (((calls.map Prod.fst).reverse).take maxSnapshots
        ++ ((calls.map Prod.fst).reverse).drop maxSnapshots).Nodup := by
      rw [List.take_append_drop]
      exact hrevNodup
    rcases List.nodup_append.mp h2 with ⟨-, -, hdisj⟩
    apply hdisj (a := c.1)
    · have : (recentWindow calls).map Prod.fst
          = ((calls.map Prod.fst).reverse).take maxSnapshots := by
        unfold recentWindow
        rw [List.map_take, List.map_reverse]
      rw [← this]
      exact hm
    · have : (calls.reverse.drop maxSnapshots).map Prod.fst
          = ((calls.map Prod.fst).reverse).drop maxSnapshots := by
        rw [List.map_drop, List.map_reverse]
      rw [← this]
      exact List.mem_map_of_mem Prod.fst hc
  · intro rest c hcalls
    subst hcalls
    rw [hidx]
    unfold recentWindow
    rw [List.reverse_append]
    simp only [List.reverse_cons, List.reverse_nil, List.nil_append, List.singleton_append]
    rw [List.take_cons (by decide : 0 < maxSnapshots)]
    rfl

/-- C3 witness: two concrete snapshot calls. -/
theorem c3_snapshot_retention_witness :
    (([("a", sampleRaw), ("b", rawAbsent)].map Prod.fst).Nodup
      ∧ ∀ c ∈ [("a", sampleRaw), ("b", rawAbsent)], c.1 ≠ "")
    ∧ (listSnapshots (runCreates [("a", sampleRaw), ("b", rawAbsent)])).length
        = min 2 maxSnapshots
    ∧ listSnapshots (runCreates [("a", sampleRaw), ("b", rawAbsent)])
        = (recentWindow [("a", sampleRaw), ("b", rawAbsent)]).map entryOfCall
    ∧ (∀ c ∈ recentWindow [("a", sampleRaw), ("b", rawAbsent)],
        getSnap (runCreates [("a", sampleRaw), ("b", rawAbsent)]) c.1 = some (snapOfCall c)) := by
  refine ⟨⟨by decide, by decide⟩, ?_, ?_, ?_⟩
  · exact (c3_snapshot_retention _ (by decide) (by decide)).1
  · exact (c3_snapshot_retention _ (by decide) (by decide)).2.1
  · exact (c3_snapshot_retention _ (by decide) (by decide)).2.2.1

end BillarApp
